import Mathlib

/-!
Verification of the `nethe550/verlet` 2D Verlet-integration physics simulator.

The numeric model: the simulator's arithmetic on JavaScript numbers is embedded
at two levels.

* An exact model over `ℚ` (`Vec2`, `Point`, `Spring`, `Rect`), used for the
  dynamics and clamping claims.  The only inexact JS operation on the code
  paths concerned is `Math.sqrt` inside `Vector2.Distance`; it is handled by
  parameterising `Spring.update` over the computed distance and pinning that
  parameter to the unique non-negative square root through a relation
  (`Spring.UpdateRel`).  On the concrete inputs of the claims the square roots
  are exact in binary floating point, so the `ℚ` model agrees with the code.

* A model `JNum` of JavaScript numbers with the IEEE-754 special values
  (`NaN`, `±Infinity`) and exact rational finite values, used for the claims
  about NaN generation and propagation (division by zero in `Spring.update`,
  `Math.min`/`Math.max`/`Math.abs` in the clamping setters).  Rounding of
  finite values is not modelled; the generation and propagation of special
  values — which is what those claims are about — follows the ECMAScript
  (IEEE-754) rules operation by operation.  Negative zero is not modelled;
  every `fin 0` is `+0`, matching the literals appearing in the source.
-/

namespace Verlet

/-- Two-dimensional vector over exact rationals.  Source: `src/util/vector/Vector2.js`,
`class Vector2` with numeric fields `x`, `y`. -/
@[ext]
structure Vec2 where
  x : ℚ
  y : ℚ
  deriving DecidableEq, Repr

/-- `Vector2.add` with a `Vector2` argument: `Vector2.Arithmetic(this, v, (a, b) => a + b)`,
componentwise since both arguments are vectors. -/
def Vec2.add (u v : Vec2) : Vec2 := ⟨u.x + v.x, u.y + v.y⟩

/-- `Vector2.sub` with a `Vector2` argument: componentwise subtraction. -/
def Vec2.sub (u v : Vec2) : Vec2 := ⟨u.x - v.x, u.y - v.y⟩

/-- `Vector2.mul` with a scalar (`number`) argument: `Vector2.Arithmetic` takes the
`typeof b === 'number'` branch and multiplies each component by the scalar. -/
def Vec2.mulS (u : Vec2) (s : ℚ) : Vec2 := ⟨u.x * s, u.y * s⟩

/-- `Vector2.SqrDistance(vectorA, vectorB) = Math.pow(bx - ax, 2) + Math.pow(by - ay, 2)`. -/
def Vec2.SqrDistance (a b : Vec2) : ℚ := (b.x - a.x) ^ 2 + (b.y - a.y) ^ 2

/-- `Vector2.IsZero(v)` with the default `epsilon = 0`: the `epsilon === 0` branch,
`v.x === 0 && v.y === 0`. -/
def Vec2.IsZero (v : Vec2) : Bool := v.x == 0 && v.y == 0

/-- Axis-aligned rectangle.  Source: `src/util/struct/Rectangle.js`, `class Rectangle`
with fields `x`, `y`, `w`, `h`. -/
structure Rect where
  x : ℚ
  y : ℚ
  w : ℚ
  h : ℚ
  deriving DecidableEq, Repr

/-- `Rectangle.Constrain(p, rect, offset)`: clamps each axis of `p` independently
into the rectangle inset by `offset`.  All four `if`s test the ORIGINAL `p`
(the source writes into the copy `n` but keeps reading `p`). -/
def Rect.Constrain (p : Vec2) (rect : Rect) (offset : ℚ) : Vec2 :=
  let w := rect.x + rect.w
  let h := rect.y + rect.h
  let nx := if p.x > w - offset then w - offset else p.x
  let nx := if p.x < rect.x + offset then rect.x + offset else nx
  let ny := if p.y > h - offset then h - offset else p.y
  let ny := if p.y < rect.y + offset then rect.y + offset else ny
  ⟨nx, ny⟩

/-- Instance method `Rectangle.prototype.constrain(p, offset) = Rectangle.Constrain(p, this, offset)`. -/
def Rect.constrain (rect : Rect) (p : Vec2) (offset : ℚ) : Vec2 :=
  Rect.Constrain p rect offset

/-- `Number.EPSILON` = 2⁻⁵². -/
def jsEPSILON : ℚ := 1 / 2 ^ 52

/-- `Number.MAX_VALUE` = (2⁵³ − 1) · 2⁹⁷¹. -/
def jsMAX : ℚ := (2 ^ 53 - 1) * 2 ^ 971

/-- A point mass.  Source: `src/physics/primitives/Point.js`, `class Point`.
`dpos` is the private field `_dpos` ("previous position"); `size` is the only
field of `style` the physics reads (`p.style.size`, the visual radius). -/
@[ext]
structure Point where
  fixed : Bool
  position : Vec2
  dpos : Vec2
  mass : ℚ
  friction : ℚ
  gravity : Vec2
  size : ℚ
  deriving DecidableEq, Repr

/-- The `Point` constructor.
`this._dpos = velocity && !Vector2.IsZero(velocity) ? this.position.add(velocity) : this.position.copy()`
(the `velocity` argument is a `Vector2` object, hence always truthy; only the
`IsZero` test decides the branch);
`this._mass = Math.min(Math.max(Number.EPSILON, Math.abs(mass)), Number.MAX_VALUE)`;
`this._friction = Math.min(Math.max(friction, 0), 1)`. -/
def Point.mkJS (fixed : Bool) (position velocity : Vec2) (mass friction : ℚ)
    (gravity : Vec2) (size : ℚ) : Point :=
  { fixed := fixed
    position := position
    dpos := if ¬ Vec2.IsZero velocity then position.add velocity else position
    mass := min (max jsEPSILON |mass|) jsMAX
    friction := min (max friction 0) 1
    gravity := gravity
    size := size }

/-- `Point.prototype.update()`:
`if (this.fixed) return;`
`let velocity = this.position.sub(this._dpos).mul(1 - this._friction);`
`this._dpos.set(this.position.x, this.position.y);`
`this.position = this.position.add(velocity).add(this.gravity);` -/
def Point.update (p : Point) : Point :=
  if p.fixed then p
  else
    let velocity := (p.position.sub p.dpos).mulS (1 - p.friction)
    { p with dpos := p.position
             position := (p.position.add velocity).add p.gravity }

/-- A spring constraint between two point masses.  Source:
`src/physics/primitives/Spring.js`, `class Spring`.  The source holds object
references `a`, `b`; here the two endpoint states are stored by value, which is
faithful whenever `a` and `b` are distinct objects (as every topology factory
in the repository constructs them). -/
structure Spring where
  a : Point
  b : Point
  stiffness : ℚ
  restLength : ℚ
  deriving DecidableEq, Repr

/-- Body of `Spring.prototype.update()`, with the value of
`Vector2.Distance(this.a.position, this.b.position)` supplied as the parameter
`dist` (that call is the one square root on this code path; see
`Spring.UpdateRel`).  Beware that `ℚ` division by zero yields `0`, unlike
JavaScript: this exact model is only used through `Spring.UpdateRel`, whose
`dist ≠ 0` instances are the ones the exact claims concern; the `dist = 0` NaN
behaviour is settled in the `JNum` model below. -/
def Spring.updateWith (s : Spring) (dist : ℚ) : Spring :=
  let d := s.b.position.sub s.a.position
  let restDiff := (s.restLength - dist) / dist * s.stiffness
  let offset := d.mulS (restDiff * 0.5)
  let m1c := s.a.mass + s.b.mass
  let m2 := s.a.mass / m1c
  let m1 := s.b.mass / m1c
  let a1 := if ¬ s.a.fixed then { s.a with position := s.a.position.sub (offset.mulS m1) } else s.a
  let b1 := if ¬ s.b.fixed then { s.b with position := s.b.position.add (offset.mulS m2) } else s.b
  { s with a := a1, b := b1 }

/-- One `Spring.prototype.update()` pass: `dist` is
`Math.sqrt(Vector2.SqrDistance(a.position, b.position))`, i.e. the unique
non-negative square root (exact in floating point whenever that root is
representable, as on every concrete input below). -/
def Spring.UpdateRel (s s1 : Spring) : Prop :=
  ∃ dist : ℚ, 0 ≤ dist ∧ dist ^ 2 = Vec2.SqrDistance s.a.position s.b.position ∧
    s1 = s.updateWith dist

/-! ### JavaScript-number model

`JNum` models an ECMAScript `number` as `NaN`, a signed infinity, or an exact
finite rational (`inf true` is `+Infinity`, `inf false` is `-Infinity`).
Rounding and negative zero are not modelled (see the header comment); the
special-value rules below follow IEEE-754 / ECMAScript case by case. -/

inductive JNum : Type where
  | nan : JNum
  | inf : Bool → JNum
  | fin : ℚ → JNum
  deriving DecidableEq, Repr

/-- Sign (true = non-negative) of a finite rational, used for the sign of an
infinite product or quotient. -/
def JNum.posSign (q : ℚ) : Bool := decide (0 ≤ q)

/-- IEEE addition `a + b` on the special values; exact on finite arguments. -/
def JNum.jadd : JNum → JNum → JNum
  | .nan, _ => .nan
  | _, .nan => .nan
  | .inf s, .inf t => if s = t then .inf s else .nan
  | .inf s, .fin _ => .inf s
  | .fin _, .inf t => .inf t
  | .fin a, .fin b => .fin (a + b)

/-- IEEE subtraction `a - b` on the special values; exact on finite arguments. -/
def JNum.jsub : JNum → JNum → JNum
  | .nan, _ => .nan
  | _, .nan => .nan
  | .inf s, .inf t => if s = t then .nan else .inf s
  | .inf s, .fin _ => .inf s
  | .fin _, .inf t => .inf !t
  | .fin a, .fin b => .fin (a - b)

/-- IEEE multiplication `a * b`: `0 * ±Infinity = NaN`, signs multiply; exact on
finite arguments. -/
def JNum.jmul : JNum → JNum → JNum
  | .nan, _ => .nan
  | _, .nan => .nan
  | .inf s, .inf t => .inf (s = t)
  | .inf s, .fin b => if b = 0 then .nan else .inf (s = JNum.posSign b)
  | .fin a, .inf t => if a = 0 then .nan else .inf (JNum.posSign a = t)
  | .fin a, .fin b => .fin (a * b)

/-- IEEE division `a / b`: `0 / 0 = NaN`, nonzero `/ 0 = ±Infinity` (the divisor
`0` here is `+0`), `±Infinity / ±Infinity = NaN`, finite `/ ±Infinity = 0`;
exact on finite arguments with nonzero divisor. -/
def JNum.jdiv : JNum → JNum → JNum
  | .nan, _ => .nan
  | _, .nan => .nan
  | .inf _, .inf _ => .nan
  | .inf s, .fin b => if b = 0 then .inf s else .inf (s = JNum.posSign b)
  | .fin _, .inf _ => .fin 0
  | .fin a, .fin b =>
      if b = 0 then (if a = 0 then .nan else .inf (JNum.posSign a))
      else .fin (a / b)

/-- `Math.max(a, b)`: `NaN` if either argument is `NaN`, otherwise the larger. -/
def JNum.jmax : JNum → JNum → JNum
  | .nan, _ => .nan
  | _, .nan => .nan
  | .inf true, _ => .inf true
  | _, .inf true => .inf true
  | .inf false, b => b
  | a, .inf false => a
  | .fin a, .fin b => .fin (max a b)

/-- `Math.min(a, b)`: `NaN` if either argument is `NaN`, otherwise the smaller. -/
def JNum.jmin : JNum → JNum → JNum
  | .nan, _ => .nan
  | _, .nan => .nan
  | .inf false, _ => .inf false
  | _, .inf false => .inf false
  | .inf true, b => b
  | a, .inf true => a
  | .fin a, .fin b => .fin (min a b)

/-- `Math.abs`: `NaN ↦ NaN`, `±Infinity ↦ +Infinity`, exact on finite values. -/
def JNum.jabs : JNum → JNum
  | .nan => .nan
  | .inf _ => .inf true
  | .fin a => .fin |a|

/-- `Math.pow(x, 2)`: `NaN ↦ NaN`, `(±Infinity)² = +Infinity`, exact square on
finite values. -/
def JNum.jsq : JNum → JNum
  | .nan => .nan
  | .inf _ => .inf true
  | .fin a => .fin (a ^ 2)

/-- `d` is the value of `Math.sqrt(s)`: `NaN` for `NaN` or negative input
(including `-Infinity`), `+Infinity` for `+Infinity`, and the unique
non-negative square root for a non-negative finite input (exact whenever that
root is representable; on the inputs below it is `0`). -/
def JNum.IsSqrtOf (d s : JNum) : Prop :=
  match s with
  | .nan => d = .nan
  | .inf true => d = .inf true
  | .inf false => d = .nan
  | .fin q => if q < 0 then d = .nan else ∃ r : ℚ, d = .fin r ∧ 0 ≤ r ∧ r ^ 2 = q

/-- Two-dimensional vector of JavaScript numbers. -/
@[ext]
structure Vec2J where
  x : JNum
  y : JNum
  deriving DecidableEq, Repr

/-- Componentwise `Vector2.add` with a vector argument, on JS numbers. -/
def Vec2J.add (u v : Vec2J) : Vec2J := ⟨u.x.jadd v.x, u.y.jadd v.y⟩

/-- Componentwise `Vector2.sub` with a vector argument, on JS numbers. -/
def Vec2J.sub (u v : Vec2J) : Vec2J := ⟨u.x.jsub v.x, u.y.jsub v.y⟩

/-- `Vector2.mul` with a scalar argument, on JS numbers. -/
def Vec2J.mulS (u : Vec2J) (s : JNum) : Vec2J := ⟨u.x.jmul s, u.y.jmul s⟩

/-- `Vector2.SqrDistance` on JS numbers:
`Math.pow(bx - ax, 2) + Math.pow(by - ay, 2)`. -/
def Vec2J.SqrDistance (a b : Vec2J) : JNum :=
  ((b.x.jsub a.x).jsq).jadd ((b.y.jsub a.y).jsq)

/-- The fields of a `Point` that `Spring.prototype.update()` reads, on JS numbers. -/
structure PointJ where
  fixed : Bool
  position : Vec2J
  mass : JNum
  deriving DecidableEq, Repr

/-- A `Spring` on JS numbers (endpoints by value; see `Spring`). -/
structure SpringJ where
  a : PointJ
  b : PointJ
  stiffness : JNum
  restLength : JNum
  deriving DecidableEq, Repr

/-- Body of `Spring.prototype.update()` on JS numbers, with the value of
`Vector2.Distance(a.position, b.position)` supplied as `dist` (pinned by
`SpringJ.UpdateRel`).  Identical line-for-line to `Spring.updateWith`, with the
IEEE special-value rules in force; `0.5` is exact in binary floating point. -/
def SpringJ.updateWith (s : SpringJ) (dist : JNum) : SpringJ :=
  let d := s.b.position.sub s.a.position
  let restDiff := ((s.restLength.jsub dist).jdiv dist).jmul s.stiffness
  let offset := d.mulS (restDiff.jmul (.fin (1 / 2)))
  let m1c := s.a.mass.jadd s.b.mass
  let m2 := s.a.mass.jdiv m1c
  let m1 := s.b.mass.jdiv m1c
  let a1 := if ¬ s.a.fixed then { s.a with position := s.a.position.sub (offset.mulS m1) } else s.a
  let b1 := if ¬ s.b.fixed then { s.b with position := s.b.position.add (offset.mulS m2) } else s.b
  { s with a := a1, b := b1 }

/-- One `Spring.prototype.update()` pass on JS numbers: `dist` is the value of
`Math.sqrt(Vector2.SqrDistance(a.position, b.position))`. -/
def SpringJ.UpdateRel (s s1 : SpringJ) : Prop :=
  ∃ dist : JNum, dist.IsSqrtOf (Vec2J.SqrDistance s.a.position s.b.position) ∧
    s1 = s.updateWith dist

/-- `Number.EPSILON` as a JS number. -/
def jsEPSILONJ : JNum := .fin jsEPSILON

/-- `Number.MAX_VALUE` as a JS number. -/
def jsMAXJ : JNum := .fin jsMAX

/-- The `Point` friction setter, on JS numbers:
`set friction(f) { this._friction = Math.min(Math.max(f, 0), 1); }` -/
def Point.setFriction (f : JNum) : JNum := (f.jmax (.fin 0)).jmin (.fin 1)

/-- The `Point` mass setter, on JS numbers:
`set mass(m) { this._mass = Math.min(Math.max(Number.EPSILON, Math.abs(m)), Number.MAX_VALUE); }` -/
def Point.setMass (m : JNum) : JNum := (jsEPSILONJ.jmax m.jabs).jmin jsMAXJ

/-- The `Spring` stiffness setter, on JS numbers:
`set stiffness(s) { this._stiffness = Math.max(Math.abs(s), Number.EPSILON); }` -/
def Spring.setStiffness (s : JNum) : JNum := (s.jabs).jmax jsEPSILONJ

/-! ### Simulation container (`src/physics/Simulation.js`)

A JavaScript `Set` is modelled as its insertion-ordered list of distinct
elements.  `Set.prototype.size` is an ACCESSOR PROPERTY whose value is a
number, not a method; the minimal property/call model below captures that
invoking a non-callable value raises a `TypeError`.  A `null`/`undefined`
argument is modelled as `Option.none` (objects are truthy, `null` and
`undefined` falsy). -/

inductive JSError : Type where
  | typeError : JSError
  deriving DecidableEq, Repr

/-- The value found at a property access, as far as a call site cares:
either a plain (number) value or a callable. -/
inductive JSProperty (α : Type) : Type where
  | number : ℕ → JSProperty α
  | method : (Unit → α) → JSProperty α

/-- Invoking the result of a property access, `obj.prop()`: calling a
non-callable value raises `TypeError`. -/
def JSProperty.invoke {α : Type} : JSProperty α → Except JSError α
  | .number _ => .error .typeError
  | .method f => .ok (f ())

/-- A JavaScript `Set`, as its insertion-ordered element list. -/
structure JSSet (α : Type) where
  elems : List α

/-- `Set.prototype.size`: an accessor property holding the element count as a
number (NOT a method). -/
def JSSet.sizeProperty {α β : Type} (s : JSSet α) : JSProperty β :=
  .number s.elems.length

/-- `Set.prototype.has`: membership. -/
def JSSet.has {α : Type} [DecidableEq α] (s : JSSet α) (x : α) : Bool :=
  decide (x ∈ s.elems)

/-- `Set.prototype.add`: appends if absent (insertion order preserved). -/
def JSSet.addElem {α : Type} [DecidableEq α] (s : JSSet α) (x : α) : JSSet α :=
  if s.has x then s else ⟨s.elems ++ [x]⟩

/-- `Set.prototype.delete`: removes the element and reports whether it was
present. -/
def JSSet.deleteElem {α : Type} [DecidableEq α] (s : JSSet α) (x : α) : Bool × JSSet α :=
  (s.has x, ⟨s.elems.erase x⟩)

/-- The simulation container, over an abstract entity type `E`. -/
structure Simulation (E : Type) where
  entities : JSSet E

/-- `Simulation.prototype.update(bounds)`:
`if (this.entities.size() === 0) return;` then `for (let e of this.entities) e.update(bounds);`.
The per-entity update is abstracted as `upd`.  The result is the thrown error
or the updated simulation. -/
def Simulation.update {E : Type} (upd : E → Rect → E) (sim : Simulation E)
    (bounds : Rect) : Except JSError (Simulation E) :=
  match (JSSet.sizeProperty sim.entities : JSProperty ℕ).invoke with
  | .error e => .error e
  | .ok sz =>
      if sz = 0 then .ok sim
      else .ok ⟨⟨sim.entities.elems.map (fun e => upd e bounds)⟩⟩

/-- `Simulation.prototype.addEntity(e)`:
`if (e && !this.entities.has(e)) return Boolean(this.entities.add(e)); else return false;`
(`Set.add` returns the set, an object, hence `Boolean(...)` is `true`). -/
def Simulation.addEntity {E : Type} [DecidableEq E] (sim : Simulation E)
    (e : Option E) : Bool × Simulation E :=
  match e with
  | none => (false, sim)
  | some x =>
      if sim.entities.has x then (false, sim)
      else (true, ⟨sim.entities.addElem x⟩)

/-- `Simulation.prototype.addEntities(...e)`: one `addEntity` per argument in
input order, collecting the booleans; `[]` when called with no arguments. -/
def Simulation.addEntities {E : Type} [DecidableEq E] (sim : Simulation E) :
    List (Option E) → List Bool × Simulation E
  | [] => ([], sim)
  | e :: rest =>
      let r1 := sim.addEntity e
      let r2 := r1.2.addEntities rest
      (r1.1 :: r2.1, r2.2)

/-- `Simulation.prototype.removeEntity(e)`: `return this.entities.delete(e);`.
A `null`/`undefined` argument is never an element of the entity set (only
objects are ever inserted), so `delete` reports `false` for it. -/
def Simulation.removeEntity {E : Type} [DecidableEq E] (sim : Simulation E)
    (e : Option E) : Bool × Simulation E :=
  match e with
  | none => (false, sim)
  | some x =>
      let r := sim.entities.deleteElem x
      (r.1, ⟨r.2⟩)

/-- `Simulation.prototype.removeEntities(...e)`: one `removeEntity` per argument
in input order; `[]` when called with no arguments. -/
def Simulation.removeEntities {E : Type} [DecidableEq E] (sim : Simulation E) :
    List (Option E) → List Bool × Simulation E
  | [] => ([], sim)
  | e :: rest =>
      let r1 := sim.removeEntity e
      let r2 := r1.2.removeEntities rest
      (r1.1 :: r2.1, r2.2)

/-! ### Entity solver pipeline (`src/physics/entity/Entity.js`)

The entity owns its points; springs reference points held by the entity.  To
model that sharing, the points live in an indexed store (`List Point`, in the
set's insertion order) and a spring holds the two indices of its endpoints.

The source guards `if (this.points.length === 0) return;` and
`if (this.springs.length === 0) return;` read `.length` on a `Set`, which is
`undefined`; `undefined === 0` is `false`, so neither guard ever fires and the
iteration loop always runs (harmlessly, when the collections are empty).  The
translation therefore omits them.

`Spring.prototype.update()` computes `Math.sqrt` once per call, so the whole
pipeline is parameterised by an oracle giving, for iteration `i` and spring
index `j`, the distance that the square root evaluated to; every theorem below
holds for all oracles. -/

/-- A spring as stored by an entity: endpoint indices into the point store plus
its own scalar state. -/
structure SpringRef where
  a : ℕ
  b : ℕ
  stiffness : ℚ
  restLength : ℚ
  deriving DecidableEq, Repr

/-- An entity: iteration count, owned points (insertion order), owned springs. -/
structure Entity where
  iterations : ℕ
  points : List Point
  springs : List SpringRef
  deriving DecidableEq, Repr

/-- One guarded endpoint write, `if (!point.fixed) point.position = f(point)`:
reads the current occupant of index `i`, and overwrites its position (through
`f`) only when it is not fixed. -/
def writeUnlessFixed (store : List Point) (i : ℕ) (f : Point → Point) : List Point :=
  match store[i]? with
  | some q => if ¬ q.fixed then store.set i (f q) else store
  | none => store

/-- One `Spring.prototype.update()` on the point store: reads both endpoints,
computes `d`, `restDiff`, `offset` and the mass ratios from the pre-write
state, writes `a` first, then writes `b` reading `b`'s current state from the
store after `a`'s write (as the two sequential assignments in the source do;
when the two indices coincide, the second write sees the first, exactly as the
aliased object references would). -/
def springStep (store : List Point) (sp : SpringRef) (dist : ℚ) : List Point :=
  match store[sp.a]?, store[sp.b]? with
  | some pa, some pb =>
      let d := pb.position.sub pa.position
      let restDiff := (sp.restLength - dist) / dist * sp.stiffness
      let offset := d.mulS (restDiff * 0.5)
      let m1c := pa.mass + pb.mass
      let m2 := pa.mass / m1c
      let m1 := pb.mass / m1c
      let store1 := writeUnlessFixed store sp.a
        (fun q => { q with position := q.position.sub (offset.mulS m1) })
      writeUnlessFixed store1 sp.b
        (fun q => { q with position := q.position.add (offset.mulS m2) })
  | _, _ => store

/-- The integration phase of `Entity.prototype.update(bounds)`:
`p.update(); p.position = bounds.constrain(p.position, p.style.size);`
for every point. -/
def integratePhase (bounds : Rect) (store : List Point) : List Point :=
  store.map fun p =>
    let p1 := p.update
    { p1 with position := bounds.constrain p1.position p1.size }

/-- The re-clamp at the top of each relaxation iteration:
`p.position = bounds.constrain(p.position, p.style.size);` for every point. -/
def clampPhase (bounds : Rect) (store : List Point) : List Point :=
  store.map fun p => { p with position := bounds.constrain p.position p.size }

/-- One relaxation pass: `for (let s of this.springs) s.update();`, each spring
receiving its distance from the oracle `d`. -/
def springPhase (springs : List SpringRef) (d : ℕ → ℚ) (store : List Point) : List Point :=
  springs.enum.foldl (fun st js => springStep st js.2 (d js.1)) store

/-- The `for (let i = 0; i < this._iterations; i++)` loop: clamp every point,
then relax every spring, `n` times. -/
def iterLoop (bounds : Rect) (springs : List SpringRef) (oracle : ℕ → ℕ → ℚ) :
    ℕ → List Point → List Point
  | 0, store => store
  | n + 1, store => iterLoop bounds springs oracle n (springPhase springs (oracle n) (clampPhase bounds store))

/-- `Entity.prototype.update(bounds)`: integrate-and-clamp every point once,
then run the clamp-then-relax loop `iterations` times. -/
def Entity.update (ent : Entity) (bounds : Rect) (oracle : ℕ → ℕ → ℚ) : Entity :=
  { ent with points := iterLoop bounds ent.springs oracle ent.iterations (integratePhase bounds ent.points) }

/-- The two-point spring of the end-to-end property: `a` fixed at (0,0), `b`
free at (12,0), restLength 10, stiffness 2, mass 1 each, friction 0, no
gravity. -/
def exampleSpringC5 : Spring :=
  { a := { fixed := true, position := ⟨0, 0⟩, dpos := ⟨0, 0⟩, mass := 1, friction := 0,
           gravity := ⟨0, 0⟩, size := 0 }
    b := { fixed := false, position := ⟨12, 0⟩, dpos := ⟨12, 0⟩, mass := 1, friction := 0,
           gravity := ⟨0, 0⟩, size := 0 }
    stiffness := 2
    restLength := 10 }

/-- A spring whose two (non-fixed) endpoints have coincident finite positions,
both at (1,1), with mass 1, stiffness 2, rest length 5. -/
def coincidentSpring : SpringJ :=
  { a := { fixed := false, position := ⟨.fin 1, .fin 1⟩, mass := .fin 1 }
    b := { fixed := false, position := ⟨.fin 1, .fin 1⟩, mass := .fin 1 }
    stiffness := .fin 2
    restLength := .fin 5 }

/-- A fixed point parked outside the left edge of the bounds used below
(style size 5, position (-50, 50)). -/
def pC10 : Point :=
  { fixed := true, position := ⟨-50, 50⟩, dpos := ⟨-50, 50⟩, mass := 1, friction := 0,
    gravity := ⟨0, 1⟩, size := 5 }

/-- An entity owning just that fixed point and one (self-referential) spring,
with two relaxation iterations. -/
def entC10 : Entity :=
  { iterations := 2, points := [pC10], springs := [⟨0, 0, 2, 10⟩] }

/-- The bounds rectangle (0, 0, 100, 100). -/
def bC10 : Rect := ⟨0, 0, 100, 100⟩

/-! ### Claims -/

/-- C1: the claim says `Simulation.update(bounds)` invokes `update(bounds)` on
each entity and completes without raising an error (a silent no-op on an empty
entity set).  In the source, the guard `if (this.entities.size() === 0) return;`
INVOKES `size`, but `Set.prototype.size` is an accessor property whose value is
a number, so every call of `Simulation.update` raises a `TypeError` before any
entity is updated — for every simulation, every bounds rectangle, and every
per-entity update behaviour. -/
theorem claim_C1_simulation_update_always_throws {E : Type} (upd : E → Rect → E)
    (sim : Simulation E) (bounds : Rect) :
    Simulation.update upd sim bounds = .error .typeError := rfl

/-- Closed form of iterating `Point.update` on a non-fixed point with zero
initial velocity (`_dpos = position`), friction `0` and constant gravity `g`:
after `n` ticks the position is `pos + (n(n+1)/2)·g` and the previous position
trails it by `n·g`. -/
theorem point_update_iterate_closed (px py gx gy m sz : ℚ) : ∀ n : ℕ,
    Point.update^[n] ⟨false, ⟨px, py⟩, ⟨px, py⟩, m, 0, ⟨gx, gy⟩, sz⟩
      = ⟨false,
         ⟨px + gx * ((n * (n + 1) : ℚ) / 2), py + gy * ((n * (n + 1) : ℚ) / 2)⟩,
         ⟨px + gx * ((n * (n + 1) : ℚ) / 2 - n), py + gy * ((n * (n + 1) : ℚ) / 2 - n)⟩,
         m, 0, ⟨gx, gy⟩, sz⟩ := by
  intro n
  induction n with
  | zero =>
      simp [Point.mk.injEq, Vec2.mk.injEq]
  | succ n ih =>
      rw [Function.iterate_succ_apply', ih]
      ext <;> simp [Point.update, Vec2.add, Vec2.sub, Vec2.mulS]
      all_goals try exact Or.inl (by push_cast; ring)
      all_goals (push_cast; ring)

/-- C4: for a non-fixed point with zero initial velocity (`_dpos` equal to the
position, as the constructor produces for a zero velocity vector), friction 0
and constant gravity `g`, `n` successive `Point.update()` calls move the
position to `initial + (0+1+2+⋯+n)·g`; concretely from `(10,10)` with
`g=(0,1)`: `(10,11)` after tick 1, `(10,13)` after tick 2, `(10,16)` after
tick 3. -/
theorem claim_C4_gravity_quadratic_growth :
    (∀ (px py gx gy m sz : ℚ) (n : ℕ),
      (Point.update^[n] ⟨false, ⟨px, py⟩, ⟨px, py⟩, m, 0, ⟨gx, gy⟩, sz⟩).position
        = Vec2.add ⟨px, py⟩ (Vec2.mulS ⟨gx, gy⟩ (∑ i in Finset.range (n + 1), (i : ℚ))))
    ∧ (Point.update^[1] ⟨false, ⟨10, 10⟩, ⟨10, 10⟩, 1, 0, ⟨0, 1⟩, 0⟩).position = ⟨10, 11⟩
    ∧ (Point.update^[2] ⟨false, ⟨10, 10⟩, ⟨10, 10⟩, 1, 0, ⟨0, 1⟩, 0⟩).position = ⟨10, 13⟩
    ∧ (Point.update^[3] ⟨false, ⟨10, 10⟩, ⟨10, 10⟩, 1, 0, ⟨0, 1⟩, 0⟩).position = ⟨10, 16⟩ := by
  refine ⟨?_, ?_, ?_, ?_⟩
  case refine_2 => rw [point_update_iterate_closed]; norm_num [Vec2.mk.injEq]
  case refine_3 => rw [point_update_iterate_closed]; norm_num [Vec2.mk.injEq]
  case refine_4 => rw [point_update_iterate_closed]; norm_num [Vec2.mk.injEq]
  intro px py gx gy m sz n
  rw [point_update_iterate_closed]
  have hsum : (∑ i in Finset.range (n + 1), (i : ℚ)) = (n * (n + 1) : ℚ) / 2 := by
    have h2 := Finset.sum_range_id_mul_two (n + 1)
    have hq : ((∑ i in Finset.range (n + 1), i : ℕ) : ℚ) * 2 = (n + 1) * n := by
      exact_mod_cast congrArg (Nat.cast : ℕ → ℚ) h2
    push_cast at hq ⊢
    linarith
  rw [hsum]
  simp [Vec2.add, Vec2.mulS]

/-- Helper: a spring pass never touches a fixed `a` endpoint, so any sequence
of passes (whatever each pass's computed distance) leaves it unchanged. -/
theorem spring_foldl_fixed_a (dists : List ℚ) : ∀ s : Spring, s.a.fixed = true →
    (dists.foldl Spring.updateWith s).a = s.a := by
  induction dists with
  | nil => intro s _; rfl
  | cons d ds ih =>
      intro s h
      rw [List.foldl_cons]
      have h1 : (Spring.updateWith s d).a = s.a := by
        simp [Spring.updateWith, h]
      rw [ih _ (by rw [h1]; exact h), h1]

/-- Helper: a spring pass never touches a fixed `b` endpoint. -/
theorem spring_foldl_fixed_b (dists : List ℚ) : ∀ s : Spring, s.b.fixed = true →
    (dists.foldl Spring.updateWith s).b = s.b := by
  induction dists with
  | nil => intro s _; rfl
  | cons d ds ih =>
      intro s h
      rw [List.foldl_cons]
      have h1 : (Spring.updateWith s d).b = s.b := by
        simp [Spring.updateWith, h]
      rw [ih _ (by rw [h1]; exact h), h1]

/-- C5: one `Spring.update()` pass computes `d = b.position - a.position`,
`restDiff = (restLength - dist)/dist * stiffness` with `dist = |d|`,
`offset = d * (restDiff * 0.5)`, moves `a` by `-offset·(massB/(massA+massB))`
and `b` by `+offset·(massA/(massA+massB))`, skipping fixed endpoints; and on
the concrete spring (`a` fixed at (0,0), `b` free at (12,0), restLength 10,
stiffness 2, mass 1 each) one pass leaves `a` at (0,0) and moves `b` to
exactly (11,0). -/
theorem claim_C5_spring_relaxation_formula :
    (∀ (s : Spring) (dist : ℚ), 0 ≤ dist →
      dist ^ 2 = Vec2.SqrDistance s.a.position s.b.position →
      ((s.updateWith dist).a.position =
        (if s.a.fixed then s.a.position
         else s.a.position.sub
           (((s.b.position.sub s.a.position).mulS
              ((s.restLength - dist) / dist * s.stiffness * 0.5)).mulS
             (s.b.mass / (s.a.mass + s.b.mass))))
       ∧ (s.updateWith dist).b.position =
        (if s.b.fixed then s.b.position
         else s.b.position.add
           (((s.b.position.sub s.a.position).mulS
              ((s.restLength - dist) / dist * s.stiffness * 0.5)).mulS
             (s.a.mass / (s.a.mass + s.b.mass))))))
    ∧ (∀ s1 : Spring, Spring.UpdateRel exampleSpringC5 s1 →
        s1.a.position = ⟨0, 0⟩ ∧ s1.b.position = ⟨11, 0⟩) := by
  constructor
  · intro s dist _ _
    constructor
    · by_cases hf : s.a.fixed <;> simp [Spring.updateWith, hf]
    · by_cases hf : s.b.fixed <;> simp [Spring.updateWith, hf]
  · rintro s1 ⟨dist, h0, hsq, rfl⟩
    have h144 : Vec2.SqrDistance exampleSpringC5.a.position exampleSpringC5.b.position
        = 144 := by
      norm_num [Vec2.SqrDistance, exampleSpringC5]
    rw [h144] at hsq
    have hfac : (dist - 12) * (dist + 12) = 0 := by linear_combination hsq
    have hd : dist = 12 := by
      rcases mul_eq_zero.mp hfac with h | h
      · linarith
      · linarith
    subst hd
    constructor <;>
      norm_num [Spring.updateWith, exampleSpringC5, Vec2.sub, Vec2.add, Vec2.mulS,
        Vec2.mk.injEq]

/-- Witness for C5 at the concrete spring, with `dist = 12` (the exact value of
`Math.sqrt(144)`). -/
theorem claim_C5_witness :
    (exampleSpringC5.updateWith 12).a.position = ⟨0, 0⟩ ∧
    (exampleSpringC5.updateWith 12).b.position = ⟨11, 0⟩ :=
  claim_C5_spring_relaxation_formula.2 (exampleSpringC5.updateWith 12)
    ⟨12, by norm_num, by norm_num [Vec2.SqrDistance, exampleSpringC5], rfl⟩

/-- C6: a fixed point's position is invariant under any number of
`Point.update()` calls and under any number of `Spring.update()` passes on an
incident spring, whatever its stored velocity (`_dpos`), gravity, or the other
endpoint's state, and whatever distance each pass's square root computed. -/
theorem claim_C6_fixed_point_position_invariant :
    (∀ (p : Point) (n : ℕ), p.fixed = true → (Point.update^[n] p).position = p.position)
    ∧ (∀ (s : Spring) (dists : List ℚ),
        (s.a.fixed = true → (dists.foldl Spring.updateWith s).a.position = s.a.position)
        ∧ (s.b.fixed = true → (dists.foldl Spring.updateWith s).b.position = s.b.position)) := by
  constructor
  · intro p n h
    have hupd : Point.update p = p := by simp [Point.update, h]
    rw [Function.iterate_fixed hupd]
  · intro s dists
    exact ⟨fun h => by rw [spring_foldl_fixed_a dists s h],
           fun h => by rw [spring_foldl_fixed_b dists s h]⟩

/-- Witness for C6: a fixed point survives five integration ticks unchanged,
and the fixed endpoint of the concrete spring survives three relaxation
passes unchanged. -/
theorem claim_C6_witness :
    (Point.update^[5] ⟨true, ⟨1, 2⟩, ⟨3, 4⟩, 1, 0, ⟨0, 1⟩, 0⟩).position = ⟨1, 2⟩ ∧
    (([4, 7, 1] : List ℚ).foldl Spring.updateWith exampleSpringC5).a.position = ⟨0, 0⟩ :=
  ⟨claim_C6_fixed_point_position_invariant.1 ⟨true, ⟨1, 2⟩, ⟨3, 4⟩, 1, 0, ⟨0, 1⟩, 0⟩ 5 rfl,
   (claim_C6_fixed_point_position_invariant.2 exampleSpringC5 [4, 7, 1]).1 rfl⟩

/-- C7: constructing a point with a non-zero initial velocity `v` sets
`_dpos = position + v` (not `position - v`), so the first `update()` with
friction 0 and gravity `g` moves the position by exactly `-v + g`; with a zero
velocity vector, `_dpos` is a copy of `position` and the first update moves the
position by exactly `g`. -/
theorem claim_C7_initial_velocity_sign_inverted :
    ∀ (pos v g : Vec2) (m sz : ℚ),
      (Vec2.IsZero v = false →
        (Point.mkJS false pos v m 0 g sz).dpos = pos.add v
        ∧ (Point.mkJS false pos v m 0 g sz).update.position = (pos.sub v).add g)
      ∧ (Vec2.IsZero v = true →
        (Point.mkJS false pos v m 0 g sz).dpos = pos
        ∧ (Point.mkJS false pos v m 0 g sz).update.position = pos.add g) := by
  intro pos v g m sz
  constructor
  · intro h
    refine ⟨by simp [Point.mkJS, h], ?_⟩
    ext <;> norm_num [Point.mkJS, Point.update, h, Vec2.add, Vec2.sub, Vec2.mulS] <;> ring
  · intro h
    refine ⟨by simp [Point.mkJS, h], ?_⟩
    ext <;> norm_num [Point.mkJS, Point.update, h, Vec2.add, Vec2.sub, Vec2.mulS] <;> ring

/-- Witness for C7 at position (10,10), velocity (3,4), gravity (0,1):
`_dpos` is (13,14) and the first update lands at (7,7) (= (10,10) − (3,4) + (0,1)). -/
theorem claim_C7_witness :
    (Point.mkJS false ⟨10, 10⟩ ⟨3, 4⟩ 1 0 ⟨0, 1⟩ 0).dpos = Vec2.add ⟨10, 10⟩ ⟨3, 4⟩
    ∧ (Point.mkJS false ⟨10, 10⟩ ⟨3, 4⟩ 1 0 ⟨0, 1⟩ 0).update.position
        = Vec2.add (Vec2.sub ⟨10, 10⟩ ⟨3, 4⟩) ⟨0, 1⟩ :=
  (claim_C7_initial_velocity_sign_inverted ⟨10, 10⟩ ⟨3, 4⟩ ⟨0, 1⟩ 1 0).1 (by rfl)

/-- Helper: when the inset `offset` is at most half of both dimensions,
`Rectangle.Constrain` lands in the inset rectangle on both axes. -/
theorem constrain_mem (r : Rect) (p : Vec2) (o : ℚ) (hw : 2 * o ≤ r.w) (hh : 2 * o ≤ r.h) :
    r.x + o ≤ (Rect.Constrain p r o).x ∧ (Rect.Constrain p r o).x ≤ r.x + r.w - o ∧
    r.y + o ≤ (Rect.Constrain p r o).y ∧ (Rect.Constrain p r o).y ≤ r.y + r.h - o := by
  simp only [Rect.Constrain]
  split_ifs <;> refine ⟨?_, ?_, ?_, ?_⟩ <;> first | rfl | linarith

/-- Helper: a point already inside the inset rectangle is left unchanged by
`Rectangle.Constrain`. -/
theorem constrain_eq_self (r : Rect) (p : Vec2) (o : ℚ)
    (hx1 : r.x + o ≤ p.x) (hx2 : p.x ≤ r.x + r.w - o)
    (hy1 : r.y + o ≤ p.y) (hy2 : p.y ≤ r.y + r.h - o) :
    Rect.Constrain p r o = p := by
  simp only [Rect.Constrain]
  ext <;> split_ifs <;> first | rfl | linarith

/-- Helper: `Rectangle.Constrain` is idempotent when the inset is at most half
of both dimensions. -/
theorem constrain_idem (r : Rect) (p : Vec2) (o : ℚ) (hw : 2 * o ≤ r.w) (hh : 2 * o ≤ r.h) :
    Rect.Constrain (Rect.Constrain p r o) r o = Rect.Constrain p r o := by
  obtain ⟨h1, h2, h3, h4⟩ := constrain_mem r p o hw hh
  exact constrain_eq_self r _ o h1 h2 h3 h4

/-- C8: for every rectangle, every (non-NaN) input point, and every offset with
`offset ≤ min(w,h)/2`, `constrain(p, offset)` returns a point with
`x+offset ≤ result.x ≤ x+w-offset` and `y+offset ≤ result.y ≤ y+h-offset`. -/
theorem claim_C8_constrain_in_inset_bounds (r : Rect) (p : Vec2) (o : ℚ)
    (h : o ≤ min r.w r.h / 2) :
    r.x + o ≤ (r.constrain p o).x ∧ (r.constrain p o).x ≤ r.x + r.w - o ∧
    r.y + o ≤ (r.constrain p o).y ∧ (r.constrain p o).y ≤ r.y + r.h - o := by
  have hw : 2 * o ≤ r.w := by
    have := min_le_left r.w r.h
    linarith
  have hh : 2 * o ≤ r.h := by
    have := min_le_right r.w r.h
    linarith
  exact constrain_mem r p o hw hh

/-- Witness for C8: the rectangle (0,0,10,10) with offset 1 confines the far
outside point (-5, 20). -/
theorem claim_C8_witness :
    (0 : ℚ) + 1 ≤ ((Rect.mk 0 0 10 10).constrain ⟨-5, 20⟩ 1).x ∧
    ((Rect.mk 0 0 10 10).constrain ⟨-5, 20⟩ 1).x ≤ 0 + 10 - 1 ∧
    (0 : ℚ) + 1 ≤ ((Rect.mk 0 0 10 10).constrain ⟨-5, 20⟩ 1).y ∧
    ((Rect.mk 0 0 10 10).constrain ⟨-5, 20⟩ 1).y ≤ 0 + 10 - 1 :=
  claim_C8_constrain_in_inset_bounds (Rect.mk 0 0 10 10) ⟨-5, 20⟩ 1 (by norm_num)

/-- Helper: multiplying `NaN` on the left yields `NaN`. -/
theorem jmul_nan_left (t : JNum) : JNum.jmul .nan t = .nan := by cases t <;> rfl

/-- Helper: subtracting `NaN` yields `NaN`. -/
theorem jsub_nan_right (t : JNum) : t.jsub .nan = .nan := by cases t <;> rfl

/-- Helper: adding `NaN` yields `NaN`. -/
theorem jadd_nan_right (t : JNum) : t.jadd .nan = .nan := by cases t <;> rfl

/-- Helper: `(x - 0) / 0` is never finite: it is `NaN` or an infinity. -/
theorem jdiv_sub_zero_cases (rl : JNum) :
    (rl.jsub (.fin 0)).jdiv (.fin 0) = .nan
    ∨ ∃ b, (rl.jsub (.fin 0)).jdiv (.fin 0) = .inf b := by
  rcases rl with _ | b | q
  · left; rfl
  · right; exact ⟨b, by simp [JNum.jsub, JNum.jdiv]⟩
  · rcases eq_or_ne q 0 with h | h
    · left; simp [JNum.jsub, JNum.jdiv, h]
    · right
      exact ⟨JNum.posSign q, by simp [JNum.jsub, JNum.jdiv, sub_zero, h]⟩

/-- Helper: a non-finite value times anything is non-finite. -/
theorem jmul_not_fin_cases (t st : JNum) (ht : t = .nan ∨ ∃ b, t = .inf b) :
    t.jmul st = .nan ∨ ∃ b, t.jmul st = .inf b := by
  rcases ht with rfl | ⟨b, rfl⟩
  · left; cases st <;> rfl
  · rcases st with _ | b2 | q2
    · left; rfl
    · right; exact ⟨_, rfl⟩
    · rcases eq_or_ne q2 0 with h | h
      · left; simp [JNum.jmul, h]
      · right
        exact ⟨decide (b = JNum.posSign q2), by simp [JNum.jmul, h]⟩

/-- Helper: `0` times a non-finite value is `NaN`. -/
theorem jmul_zero_left_nan (t : JNum) (ht : t = .nan ∨ ∃ b, t = .inf b) :
    JNum.jmul (.fin 0) t = .nan := by
  rcases ht with rfl | ⟨b, rfl⟩ <;> simp [JNum.jmul]

/-- Helper: at `dist = 0` each offset component of a coincident spring pass is
`0 * ((restLength - 0)/0 * stiffness * c)`, which is `NaN` for every rest
length, stiffness and finite factor `c` (the middle factor is `NaN` or
`±Infinity`, never finite). -/
@[simp]
theorem coincident_scalar_nan (rl st : JNum) (c : ℚ) :
    JNum.jmul (.fin 0) ((((rl.jsub (.fin 0)).jdiv (.fin 0)).jmul st).jmul (.fin c))
      = .nan :=
  jmul_zero_left_nan _
    (jmul_not_fin_cases _ _ (jmul_not_fin_cases _ _ (jdiv_sub_zero_cases rl)))

/-- Helper: the squared distance between the coincident endpoints of
`coincidentSpring` is exactly `0`, whose IEEE square root is `0`. -/
theorem coincidentSpring_sqrt :
    (JNum.fin 0).IsSqrtOf
      (Vec2J.SqrDistance coincidentSpring.a.position coincidentSpring.b.position) := by
  have h0 : Vec2J.SqrDistance coincidentSpring.a.position coincidentSpring.b.position
      = .fin 0 := by
    norm_num [coincidentSpring, Vec2J.SqrDistance, JNum.jsub, JNum.jsq, JNum.jadd]
  rw [h0]
  simp only [JNum.IsSqrtOf]
  rw [if_neg (by norm_num)]
  exact ⟨0, rfl, le_refl 0, by norm_num⟩

/-- C2 counterexample: the claim says `Spring.update()` guards `dist == 0` and
never writes NaN.  On the concrete spring with both (non-fixed) endpoints at
(1,1), the actual pass — `dist = Math.sqrt(0) = 0` satisfies the update
relation — writes NaN into both components of both endpoint positions. -/
theorem claim_C2_counterexample :
    SpringJ.UpdateRel coincidentSpring (coincidentSpring.updateWith (.fin 0))
    ∧ (coincidentSpring.updateWith (.fin 0)).a.position = ⟨.nan, .nan⟩
    ∧ (coincidentSpring.updateWith (.fin 0)).b.position = ⟨.nan, .nan⟩ := by
  refine ⟨⟨.fin 0, coincidentSpring_sqrt, rfl⟩, ?_, ?_⟩ <;>
    norm_num [SpringJ.updateWith, coincidentSpring, Vec2J.sub, Vec2J.add, Vec2J.mulS,
      JNum.jsub, JNum.jdiv, JNum.jmul, JNum.jadd, JNum.posSign, Vec2J.mk.injEq]

/-- C2 (amended): `Spring.update()` has no `dist == 0` guard.  For every spring
whose two endpoints hold coincident finite positions, the pass writes NaN into
both position components of each non-fixed endpoint (a fixed endpoint is
skipped and keeps its position). -/
theorem claim_C2_amended_no_guard_writes_nan (s : SpringJ) (ax ay : ℚ)
    (hpos : s.a.position = ⟨.fin ax, .fin ay⟩)
    (hco : s.b.position = s.a.position)
    (s1 : SpringJ) (hrel : SpringJ.UpdateRel s s1) :
    (s.a.fixed = false → s1.a.position = ⟨.nan, .nan⟩)
    ∧ (s.b.fixed = false → s1.b.position = ⟨.nan, .nan⟩)
    ∧ (s.a.fixed = true → s1.a.position = s.a.position)
    ∧ (s.b.fixed = true → s1.b.position = s.b.position) := by
  obtain ⟨dist, hsq, rfl⟩ := hrel
  have hzero : Vec2J.SqrDistance s.a.position s.b.position = .fin 0 := by
    rw [hco, hpos]
    norm_num [Vec2J.SqrDistance, JNum.jsub, JNum.jsq, JNum.jadd]
  rw [hzero] at hsq
  simp only [JNum.IsSqrtOf] at hsq
  rw [if_neg (by norm_num)] at hsq
  obtain ⟨r, hd, hr0, hrsq⟩ := hsq
  have hr : r = 0 := by
    have h2 : r * r = 0 := by linear_combination hrsq
    exact mul_self_eq_zero.mp h2
  subst hr
  subst hd
  have hdx : s.b.position.x.jsub s.a.position.x = .fin 0 := by
    rw [hco, hpos]; simp [JNum.jsub]
  have hdy : s.b.position.y.jsub s.a.position.y = .fin 0 := by
    rw [hco, hpos]; simp [JNum.jsub]
  refine ⟨?_, ?_, ?_, ?_⟩ <;> intro hf <;>
    simp [SpringJ.updateWith, hf, Vec2J.sub, Vec2J.add, Vec2J.mulS, hdx, hdy,
      coincident_scalar_nan, jmul_nan_left, jsub_nan_right, jadd_nan_right]

/-- Witness for the amended C2 at the concrete coincident spring. -/
theorem claim_C2_witness :
    (coincidentSpring.updateWith (.fin 0)).a.position = ⟨.nan, .nan⟩ :=
  (claim_C2_amended_no_guard_writes_nan coincidentSpring 1 1 rfl rfl
    (coincidentSpring.updateWith (.fin 0)) ⟨.fin 0, coincidentSpring_sqrt, rfl⟩).1 rfl

/-- C3 counterexample: the claim says the `mass`, `friction` and `stiffness`
setters never store NaN, for every input including NaN.  `Math.min`, `Math.max`
and `Math.abs` all propagate NaN, so assigning NaN stores NaN in all three. -/
theorem claim_C3_counterexample :
    Point.setFriction .nan = .nan ∧ Point.setMass .nan = .nan
    ∧ Spring.setStiffness .nan = .nan :=
  ⟨rfl, rfl, rfl⟩

/-- C3 (amended): for every non-NaN input (including the infinities) the stored
value lies in the documented interval — friction in [0,1], mass in
[EPSILON, MAX_VALUE], stiffness ≥ EPSILON or `+Infinity` (a `+Infinity` input
is stored as `+Infinity` by the stiffness setter, as `MAX_VALUE` by the mass
setter, as `1` by the friction setter); a NaN input stores NaN. -/
theorem claim_C3_amended_setters_clamp (v : JNum) (hv : v ≠ .nan) :
    (∃ q : ℚ, Point.setFriction v = .fin q ∧ 0 ≤ q ∧ q ≤ 1)
    ∧ (∃ q : ℚ, Point.setMass v = .fin q ∧ jsEPSILON ≤ q ∧ q ≤ jsMAX)
    ∧ (Spring.setStiffness v = .inf true
       ∨ ∃ q : ℚ, Spring.setStiffness v = .fin q ∧ jsEPSILON ≤ q) := by
  have hEpsMax : jsEPSILON ≤ jsMAX := by norm_num [jsEPSILON, jsMAX]
  rcases v with _ | b | q
  · exact absurd rfl hv
  · rcases b
    · exact ⟨⟨min 0 1, rfl, by norm_num, by norm_num⟩,
        ⟨jsMAX, rfl, hEpsMax, le_refl _⟩, Or.inl rfl⟩
    · exact ⟨⟨1, rfl, by norm_num, by norm_num⟩,
        ⟨jsMAX, rfl, hEpsMax, le_refl _⟩, Or.inl rfl⟩
  · exact ⟨⟨min (max q 0) 1, rfl, le_min (le_max_right q 0) zero_le_one, min_le_right _ 1⟩,
      ⟨min (max jsEPSILON |q|) jsMAX, rfl, le_min (le_max_left _ _) hEpsMax, min_le_right _ _⟩,
      Or.inr ⟨max |q| jsEPSILON, rfl, le_max_right _ _⟩⟩

/-- Witness for the amended C3 at the finite input 5. -/
theorem claim_C3_witness :
    (∃ q : ℚ, Point.setFriction (.fin 5) = .fin q ∧ 0 ≤ q ∧ q ≤ 1)
    ∧ (∃ q : ℚ, Point.setMass (.fin 5) = .fin q ∧ jsEPSILON ≤ q ∧ q ≤ jsMAX)
    ∧ (Spring.setStiffness (.fin 5) = .inf true
       ∨ ∃ q : ℚ, Spring.setStiffness (.fin 5) = .fin q ∧ jsEPSILON ≤ q) :=
  claim_C3_amended_setters_clamp (.fin 5) (by decide)

/-- Helper: after `addEntity(e)` the entity `e` is in the set (it either was
already, or was appended by `Set.add`). -/
theorem has_addEntity_self {E : Type} [DecidableEq E] (sim : Simulation E) (e : E) :
    ((sim.addEntity (some e)).2).entities.has e = true := by
  by_cases h : sim.entities.has e = true
  · simp [Simulation.addEntity, h]
  · have h1 : e ∉ sim.entities.elems := by simpa [JSSet.has] using h
    simp [Simulation.addEntity, JSSet.has, JSSet.addElem, h, h1]

/-- Helper: `addEntity` never removes an element. -/
theorem has_addEntity_mono {E : Type} [DecidableEq E] (sim : Simulation E)
    (x : Option E) (e : E) (h : sim.entities.has e = true) :
    ((sim.addEntity x).2).entities.has e = true := by
  rcases x with _ | y
  · exact h
  · by_cases hy : sim.entities.has y = true
    · simpa [Simulation.addEntity, hy] using h
    · have h1 : e ∈ sim.entities.elems := by simpa [JSSet.has] using h
      have hy1 : y ∉ sim.entities.elems := by simpa [JSSet.has] using hy
      simp [Simulation.addEntity, JSSet.has, JSSet.addElem, hy, hy1]
      exact Or.inl h1

/-- Helper: a sequence of `addEntity` calls never removes an element. -/
theorem has_addEntities_mono {E : Type} [DecidableEq E] (es : List (Option E)) :
    ∀ (sim : Simulation E) (e : E), sim.entities.has e = true →
      ((sim.addEntities es).2).entities.has e = true := by
  induction es with
  | nil => intro sim e h; exact h
  | cons x rest ih =>
      intro sim e h
      simp only [Simulation.addEntities]
      exact ih _ e (has_addEntity_mono sim x e h)

/-- C9: `addEntity` returns `true` exactly on the first call with a distinct
entity (`true` iff the entity is absent) and `false` on every later call with
that same entity — even with further add calls in between — and `false` on a
null argument; `removeEntity` returns `true` iff the entity was present
immediately before the call (`false` on null); the variadic `addEntities` /
`removeEntities` return one boolean per argument in input order, and the empty
sequence when called with no arguments. -/
theorem claim_C9_entity_set_semantics {E : Type} [DecidableEq E] :
    (∀ (sim : Simulation E) (e : E),
      (sim.addEntity (some e)).1 = true ↔ sim.entities.has e = false)
    ∧ (∀ sim : Simulation E, sim.addEntity none = (false, sim))
    ∧ (∀ (sim : Simulation E) (e : E) (es : List (Option E)),
        ((((sim.addEntity (some e)).2).addEntities es).2.addEntity (some e)).1 = false)
    ∧ (∀ (sim : Simulation E) (e : E),
        (sim.removeEntity (some e)).1 = true ↔ sim.entities.has e = true)
    ∧ (∀ sim : Simulation E, sim.removeEntity none = (false, sim))
    ∧ (∀ sim : Simulation E, sim.addEntities [] = ([], sim)
        ∧ sim.removeEntities [] = ([], sim))
    ∧ (∀ (sim : Simulation E) (es : List (Option E)),
        (sim.addEntities es).1.length = es.length
        ∧ (sim.removeEntities es).1.length = es.length)
    ∧ (∀ (sim : Simulation E) (x : Option E) (es : List (Option E)),
        (sim.addEntities (x :: es)).1
          = (sim.addEntity x).1 :: ((sim.addEntity x).2.addEntities es).1
        ∧ (sim.removeEntities (x :: es)).1
          = (sim.removeEntity x).1 :: ((sim.removeEntity x).2.removeEntities es).1) := by
  refine ⟨?_, ?_, ?_, ?_, ?_, ?_, ?_, ?_⟩
  · intro sim e
    simp only [Simulation.addEntity]
    rcases h : sim.entities.has e with _ | _ <;> simp [h]
  · intro sim; rfl
  · intro sim e es
    have hmem : (((sim.addEntity (some e)).2).addEntities es).2.entities.has e = true :=
      has_addEntities_mono es _ e (has_addEntity_self sim e)
    set s2 := (((sim.addEntity (some e)).2).addEntities es).2 with hs2
    simp [Simulation.addEntity, hmem]
  · intro sim e
    simp only [Simulation.removeEntity, JSSet.deleteElem]
  · intro sim; rfl
  · intro sim; exact ⟨rfl, rfl⟩
  · intro sim es
    constructor
    · induction es generalizing sim with
      | nil => rfl
      | cons x rest ih => simpa [Simulation.addEntities] using ih _
    · induction es generalizing sim with
      | nil => rfl
      | cons x rest ih => simpa [Simulation.removeEntities] using ih _
  · intro sim x es
    exact ⟨rfl, rfl⟩

/-- Helper: a fixed point is unchanged by `Point.update()` (the early return). -/
theorem point_update_fixed (p : Point) (h : p.fixed = true) : p.update = p := by
  simp [Point.update, h]

/-- Helper: replacing the position field with itself is the identity. -/
theorem point_eta_position (q : Point) : ({ q with position := q.position } : Point) = q := rfl

/-- Helper: writing a new value at an index whose current occupant is not fixed
cannot disturb an index holding a fixed point. -/
theorem set_unfixed_preserve (store : List Point) (i : ℕ) (old new : Point) (k : ℕ)
    (p : Point) (hi : store[i]? = some old) (hold : old.fixed = false)
    (hk : store[k]? = some p) (hf : p.fixed = true) :
    (store.set i new)[k]? = some p := by
  rcases eq_or_ne k i with rfl | hne
  · rw [hi] at hk
    cases hk
    rw [hf] at hold
    cases hold
  · rw [List.getElem?_set_ne hne.symm]
    exact hk

/-- Helper: a guarded endpoint write leaves every index holding a fixed point
unchanged. -/
theorem writeUnlessFixed_preserve (store : List Point) (i : ℕ) (f : Point → Point)
    (k : ℕ) (p : Point) (hk : store[k]? = some p) (hf : p.fixed = true) :
    (writeUnlessFixed store i f)[k]? = some p := by
  unfold writeUnlessFixed
  split
  next q hq =>
    split
    next hqf => exact set_unfixed_preserve store i q (f q) k p hq (by simpa using hqf) hk hf
    next => exact hk
  next => exact hk

/-- Helper: one spring pass (`springStep`) leaves every index holding a fixed
point unchanged: both of its writes are guarded behind `!fixed`. -/
theorem springStep_preserve (store : List Point) (sp : SpringRef) (dist : ℚ) (k : ℕ)
    (p : Point) (hk : store[k]? = some p) (hf : p.fixed = true) :
    (springStep store sp dist)[k]? = some p := by
  unfold springStep
  split
  · exact writeUnlessFixed_preserve _ _ _ k p (writeUnlessFixed_preserve _ _ _ k p hk hf) hf
  · exact hk

/-- Helper: a whole relaxation pass over any spring list preserves every index
holding a fixed point. -/
theorem springPhase_preserve (l : List (ℕ × SpringRef)) (d : ℕ → ℚ) (k : ℕ) (p : Point)
    (hf : p.fixed = true) :
    ∀ store : List Point, store[k]? = some p →
      (l.foldl (fun st js => springStep st js.2 (d js.1)) store)[k]? = some p := by
  induction l with
  | nil => intro store hk; exact hk
  | cons js rest ih =>
      intro store hk
      rw [List.foldl_cons]
      exact ih _ (springStep_preserve store js.2 (d js.1) k p hk hf)

/-- Helper: the clamp pass acts pointwise. -/
theorem clampPhase_at (bounds : Rect) (store : List Point) (k : ℕ) :
    (clampPhase bounds store)[k]?
      = store[k]?.map (fun p => { p with position := bounds.constrain p.position p.size }) := by
  simp [clampPhase, List.getElem?_map]

/-- Helper: the clamp-then-relax loop leaves a fixed, already-clamped point
unchanged for any iteration count, any springs, and any distance oracle. -/
theorem iterLoop_preserve (bounds : Rect) (springs : List SpringRef) (oracle : ℕ → ℕ → ℚ)
    (q : Point) (hf : q.fixed = true)
    (hq : bounds.constrain q.position q.size = q.position) (k : ℕ) :
    ∀ (n : ℕ) (store : List Point), store[k]? = some q →
      (iterLoop bounds springs oracle n store)[k]? = some q := by
  intro n
  induction n with
  | zero => intro store hk; exact hk
  | succ n ih =>
      intro store hk
      show (iterLoop bounds springs oracle n
        (springPhase springs (oracle n) (clampPhase bounds store)))[k]? = some q
      apply ih
      apply springPhase_preserve springs.enum (oracle n) k q hf
      rw [clampPhase_at, hk]
      simp only [Option.map_some']
      rw [hq, point_eta_position]

/-- C10: `Entity.update(bounds)` applies the boundary clamp to every point
regardless of its fixed flag: a fixed point ends at the clamped value of its
position, and when its position violates the inset bounds the clamped value
differs from the original position (fixity protects only against integration
and spring correction, not the clamp).  Stated for well-formed insets
(`2·size ≤ w` and `2·size ≤ h`), any spring list, any iteration count, and any
distance oracle for the springs' square roots. -/
theorem claim_C10_entity_clamps_fixed_points (ent : Entity) (bounds : Rect)
    (oracle : ℕ → ℕ → ℚ) (k : ℕ) (p : Point)
    (hk : ent.points[k]? = some p) (hf : p.fixed = true)
    (hw : 2 * p.size ≤ bounds.w) (hh : 2 * p.size ≤ bounds.h) :
    ((ent.update bounds oracle).points)[k]?
      = some { p with position := bounds.constrain p.position p.size }
    ∧ ((p.position.x > bounds.x + bounds.w - p.size ∨ p.position.x < bounds.x + p.size
        ∨ p.position.y > bounds.y + bounds.h - p.size ∨ p.position.y < bounds.y + p.size) →
        bounds.constrain p.position p.size ≠ p.position) := by
  constructor
  · have hqf : ({ p with position := bounds.constrain p.position p.size } : Point).fixed
        = true := hf
    have hqc : bounds.constrain
        ({ p with position := bounds.constrain p.position p.size } : Point).position
        ({ p with position := bounds.constrain p.position p.size } : Point).size
        = ({ p with position := bounds.constrain p.position p.size } : Point).position :=
      constrain_idem bounds p.position p.size hw hh
    have h1 : (integratePhase bounds ent.points)[k]?
        = some { p with position := bounds.constrain p.position p.size } := by
      simp [integratePhase, List.getElem?_map, hk, point_update_fixed p hf]
    simp only [Entity.update]
    exact iterLoop_preserve bounds ent.springs oracle _ hqf hqc k ent.iterations _ h1
  · intro hout heq
    have heq1 : Rect.Constrain p.position bounds p.size = p.position := heq
    have hmem := constrain_mem bounds p.position p.size hw hh
    rw [heq1] at hmem
    obtain ⟨h1, h2, h3, h4⟩ := hmem
    rcases hout with h | h | h | h <;> linarith

/-- Witness for C10: the entity holding the fixed point at (-50, 50) with size
5, updated in the bounds (0, 0, 100, 100) for two iterations with its spring's
distances all read as 0, ends with that point at the clamped value, which
differs from the original position. -/
theorem claim_C10_witness :
    ((entC10.update bC10 (fun _ _ => 0)).points)[0]?
      = some { pC10 with position := bC10.constrain pC10.position pC10.size }
    ∧ bC10.constrain pC10.position pC10.size ≠ pC10.position :=
  ⟨(claim_C10_entity_clamps_fixed_points entC10 bC10 (fun _ _ => 0) 0 pC10 rfl rfl
      (by norm_num [pC10, bC10]) (by norm_num [pC10, bC10])).1,
   (claim_C10_entity_clamps_fixed_points entC10 bC10 (fun _ _ => 0) 0 pC10 rfl rfl
      (by norm_num [pC10, bC10]) (by norm_num [pC10, bC10])).2
     (Or.inr (Or.inl (by norm_num [pC10, bC10])))⟩

end Verlet
